import Mathlib

/-!
Verification of the extraction-and-cost-computation pipeline of a
conversation-export statistics tool (`src/chatgpt_stats/extract.py`).

The embedding mirrors the Python source:
* `extract_file_from_zip` (archive reader) is modelled over an explicit
  association-list filesystem, with the file-path destination branch
  expanded into a trace of primitive filesystem operations so that
  mid-extraction failure can be examined;
* `extract_message_details` (message extractor) is modelled over a typed
  conversation structure matching the fields the code reads;
* `process_conversations` (batch orchestration) folds the extractor over a
  list of conversations;
* the JSON-shape behaviour of the parsing stage of `process_zip` is
  modelled over a small JSON value type with Python iteration semantics.
-/

namespace ChatGPTStats

/-! ## Typed data model (fields read by `extract_message_details`) -/

/-- A message, with exactly the fields the extractor reads:
`message["id"]`, `message["author"]["role"]`, `message["content"]["parts"]`,
`message["metadata"]["model_slug"]`, `message["create_time"]`.
Absent fields are `none` (for `parts`, the code's default is `[]`). -/
structure Message where
  id : Option String
  authorRole : Option String
  parts : List String
  modelSlug : Option String
  createTime : Option ℚ
deriving DecidableEq, Repr

/-- A node of a conversation's mapping; may or may not hold a message. -/
structure Node where
  message : Option Message
deriving DecidableEq, Repr

/-- A conversation: `conversation["id"]` and the values of
`conversation["mapping"]` in insertion order (the code iterates
`mapping.values()`; keys are never used). -/
structure Conversation where
  id : Option String
  mapping : List Node
deriving DecidableEq, Repr

/-- One pricing-table entry: input and output cost per token. -/
structure Pricing where
  input : ℚ
  output : ℚ
deriving DecidableEq, Repr

/-- An output record of the extractor (one dict appended to
`processed_messages`). -/
structure Record where
  conv_id : String
  msg_id : String
  create_time : ℚ
  role : String
  content : String
  num_tokens : ℚ
  model : String
  cost : ℚ
deriving DecidableEq, Repr

/-- `cost_per_token.get(model, {"input": 0, "output": 0})`: pricing lookup
with a free default.  Total: it cannot fail. -/
def pricingFor (cost_per_token : List (String × Pricing)) (model : String) : Pricing :=
  (List.lookup model cost_per_token).getD { input := 0, output := 0 }

/-- `num_tokens = content_length / chars_per_token` (Python true division,
modelled in `ℚ`). -/
def num_tokens_calc (content_length chars_per_token : ℕ) : ℚ :=
  (content_length : ℚ) / (chars_per_token : ℚ)

/-- One iteration of the loop body of `extract_message_details`: given the
running `model`, returns the updated running model and the record emitted
for this node (`none` when one of the skip checks fires).  The checks are,
in source order: `if not message`, `if not content`, `if not role` (the
last is Python truthiness, so an empty-string role is also skipped). -/
def processNode (conv_id : String) (chars_per_token : ℕ)
    (cost_per_token : List (String × Pricing)) (model : String) (node : Node) :
    String × Option Record :=
  match node.message with
  | none => (model, none)
  | some message =>
    match message.parts with
    | [] => (model, none)
    | part0 :: _ =>
      match message.authorRole with
      | none => (model, none)
      | some role =>
        if role = "" then (model, none)
        else
          let model' := message.modelSlug.getD model
          let pricing := pricingFor cost_per_token model'
          let num_tokens := num_tokens_calc part0.length chars_per_token
          let cost :=
            if role = "user" then pricing.input * num_tokens
            else pricing.output * num_tokens
          (model', some {
            conv_id := conv_id
            msg_id := message.id.getD "unknown_msg_id"
            create_time := message.createTime.getD 0
            role := if role = "assistant" then role ++ ":" ++ model' else role
            content := part0
            num_tokens := num_tokens
            model := model'
            cost := cost })

/-- The loop of `extract_message_details`, threading the running model. -/
def runNodes (conv_id : String) (chars_per_token : ℕ)
    (cost_per_token : List (String × Pricing)) : String → List Node → List Record
  | _, [] => []
  | model, node :: rest =>
    (processNode conv_id chars_per_token cost_per_token model node).2.toList ++
      runNodes conv_id chars_per_token cost_per_token
        (processNode conv_id chars_per_token cost_per_token model node).1 rest

/-- `extract_message_details`: the running model is seeded with `"gpt-4o"`
before the loop. -/
def extract_message_details (conversation : Conversation) (chars_per_token : ℕ)
    (cost_per_token : List (String × Pricing)) : List Record :=
  runNodes (conversation.id.getD "unknown_id") chars_per_token cost_per_token
    "gpt-4o" conversation.mapping

/-- Modelled from the spec: the static default pricing table
`COST_PER_TOKEN` lives in `chatgpt_stats/pricing.py`, which is not among
the provided source files; the spec describes it only as a static mapping
from model identifier to input/output cost-per-token.  A representative
table is used; no claim below depends on its contents. -/
def COST_PER_TOKEN : List (String × Pricing) :=
  [("gpt-4o", { input := 1/100, output := 1/50 })]

/-- `process_conversations`: runs the extractor on each conversation (with
the default pricing table, as in the source) and appends the results. -/
def process_conversations (data : List Conversation) (chars_per_token : ℕ) : List Record :=
  match data with
  | [] => []
  | conversation :: rest =>
    extract_message_details conversation chars_per_token COST_PER_TOKEN ++
      process_conversations rest chars_per_token

/-- A node passes all three skip checks (message present, non-empty content
parts, truthy author role) exactly when this predicate holds. -/
def qualifies (node : Node) : Bool :=
  match node.message with
  | none => false
  | some message =>
    match message.parts with
    | [] => false
    | _ :: _ =>
      match message.authorRole with
      | none => false
      | some role => !(role == "")

/-- The model-slug declaration of a node's message, if any. -/
def node_model_slug (node : Node) : Option String :=
  node.message.bind Message.modelSlug

/-- Sticky model resolution, formalising the spec's words: each position
resolves to the declaration carried forward from the most recent
declaration at or before it, seeded with a default. -/
def stickyResolve (seed : String) : List (Option String) → List String
  | [] => []
  | s :: rest => s.getD seed :: stickyResolve (s.getD seed) rest

/-! ## JSON layer: the parsing stage of `process_zip`

`process_zip` loads the extracted document with `json.load` and hands the
decoded value straight to `process_conversations`, which runs
`for conversation in data` and calls `conversation.get(...)` on each
element.  No shape validation is performed, so the failure behaviour on a
non-sequence top level is decided by Python iteration and attribute
semantics, modelled here. -/

/-- A decoded JSON value. -/
inductive Json where
  | null
  | bool (b : Bool)
  | num (q : ℚ)
  | str (s : String)
  | arr (elements : List Json)
  | obj (entries : List (String × Json))

/-- The exceptions the modelled code paths can raise. -/
inductive PyError where
  | JSONDecodeError
  | TypeError
  | AttributeError
  | FileNotFoundError
deriving DecidableEq, Repr

/-- Python iteration over a decoded value: a list yields its elements, a
dict yields its keys (strings, in insertion order), a string yields its
characters as one-character strings; other values are not iterable and
raise `TypeError`. -/
def pyIterValues : Json → Except PyError (List Json)
  | .arr elements => .ok elements
  | .obj entries => .ok (entries.map fun kv => Json.str kv.1)
  | .str s => .ok (s.toList.map fun c => Json.str (String.singleton c))
  | _ => .error .TypeError

/-- The loop of `process_conversations` calls `conversation.get` on each
element in turn; the first element that is not a dict raises
`AttributeError`. -/
def requireMappings : List Json → Except PyError (List (List (String × Json)))
  | [] => .ok []
  | .obj entries :: rest =>
    match requireMappings rest with
    | .ok others => .ok (entries :: others)
    | .error e => .error e
  | _ :: _ => .error .AttributeError

/-- The parsing stage of `process_zip` after extraction: `json.load`
(decode failure raises), then iteration over the top-level value with each
element required to be a conversation mapping.  Returns the list of
conversation objects on success. -/
def parse_stage (decoded : Option Json) : Except PyError (List (List (String × Json))) :=
  match decoded with
  | none => .error .JSONDecodeError
  | some doc =>
    match pyIterValues doc with
    | .error e => .error e
    | .ok elements => requireMappings elements

/-- Whether a decoded value is a sequence in Python's sense (`list` and
`str` are sequences; `dict`, numbers, booleans and `None` are not). -/
def Json.isSequence : Json → Bool
  | .arr _ => true
  | .str _ => true
  | _ => false

/-! ## Filesystem layer: `extract_file_from_zip`

The filesystem is an association list from path to file content (first
binding wins, as in `List.lookup`).  The file-path destination branch of
`extract_file_from_zip` is expanded into a trace of primitive operations:
`zip_ref.extract(file_to_extract)` opens the target in the working
directory and writes the entry content progressively (modelled as a write
of each successive accumulated prefix, one per chunk), then
`shutil.move(temp_file_path, destination)` relocates it.  Failure during
extraction is modelled by executing only a prefix of the trace. -/

/-- Remove every binding of a path. -/
def eraseKey (key : String) : List (String × String) → List (String × String)
  | [] => []
  | (a, c) :: rest => if a = key then eraseKey key rest else (a, c) :: eraseKey key rest

/-- Write (create or overwrite) a file. -/
def fsSet (fs : List (String × String)) (path content : String) :
    List (String × String) :=
  (path, content) :: eraseKey path fs

/-- A primitive filesystem operation. -/
inductive FSOp where
  | write (path content : String)
  | move (src dst : String)

/-- Apply one operation.  `move` removes the source and writes its content
at the destination (`shutil.move`); with a missing source it is a no-op
(the real call would raise before touching the destination). -/
def applyOp (fs : List (String × String)) : FSOp → List (String × String)
  | .write path content => fsSet fs path content
  | .move src dst =>
    match List.lookup src fs with
    | none => fs
    | some content => fsSet (eraseKey src fs) dst content

/-- Run a list of operations in order. -/
def runOps (fs : List (String × String)) : List FSOp → List (String × String)
  | [] => fs
  | op :: rest => runOps (applyOp fs op) rest

/-- Concatenation of content chunks. -/
def strJoin : List String → String
  | [] => ""
  | c :: rest => c ++ strJoin rest

/-- The progressive writes of an extraction: after each chunk the target
holds the accumulated content so far. -/
def chunkWrites (tempPath : String) : String → List String → List FSOp
  | _, [] => []
  | acc, c :: rest => FSOp.write tempPath (acc ++ c) :: chunkWrites tempPath (acc ++ c) rest

/-- The operation trace of the file-path destination branch: open/truncate
the target in the working directory, write the entry content
progressively, then move the result onto the destination. -/
def extractTrace (tempPath destPath : String) (chunks : List String) : List FSOp :=
  (FSOp.write tempPath "" :: chunkWrites tempPath "" chunks) ++ [FSOp.move tempPath destPath]

/-- A ZIP archive: entry name to content (as chunks). -/
structure ZipArchive where
  entries : List (String × List String)
deriving DecidableEq

/-- `extract_file_from_zip`, modelled over a world of archives (path to
archive) and the filesystem.  Returns the filesystem after the call and
either the extracted path or the exception raised.  `destIsDir` is the
result of `destination.is_dir()`; `cwd` is the working directory in which
`zip_ref.extract(file_to_extract)` (no `path` argument) places the entry. -/
def extract_file_from_zip (zips : List (String × ZipArchive))
    (zip_path file_to_extract : String) (destIsDir : Bool) (destination cwd : String)
    (fs : List (String × String)) :
    List (String × String) × Except PyError String :=
  match List.lookup zip_path zips with
  | none => (fs, .error .FileNotFoundError)
  | some z =>
    match List.lookup file_to_extract z.entries with
    | none => (fs, .error .FileNotFoundError)
    | some chunks =>
      if destIsDir then
        let extracted := destination ++ "/" ++ file_to_extract
        (fsSet fs extracted (strJoin chunks), .ok extracted)
      else
        let temp := cwd ++ "/" ++ file_to_extract
        (runOps fs (extractTrace temp destination chunks), .ok destination)

/-! ## Concrete fixtures used by witnesses and counterexamples -/

/-- First fixture message: a user message, no model declaration. -/
def msg4a : Message := ⟨some "m1", some "user", ["hello"], none, none⟩

/-- Second fixture message: an assistant message declaring `gpt-4o`. -/
def msg4b : Message := ⟨some "m2", some "assistant", ["hi"], some "gpt-4o", none⟩

/-- Third fixture message: a user message, no model declaration. -/
def msg4c : Message := ⟨some "m3", some "user", ["bye"], none, none⟩

/-- Node holding the first fixture message. -/
def node4a : Node := ⟨some msg4a⟩

/-- Node holding the second fixture message. -/
def node4b : Node := ⟨some msg4b⟩

/-- Node holding the third fixture message. -/
def node4c : Node := ⟨some msg4c⟩

/-- A conversation with three qualifying messages of which only the second
declares a model. -/
def conv4 : Conversation := ⟨some "c4", [node4a, node4b, node4c]⟩

/-- The record the extractor produces for `msg4a` in `conv4` under
`COST_PER_TOKEN` with 4 characters per token. -/
def rec4a : Record :=
  { conv_id := "c4", msg_id := "m1", create_time := 0, role := "user",
    content := "hello", num_tokens := 5/4, model := "gpt-4o", cost := 1/80 }

/-- The record the extractor produces for `msg4b` in `conv4`. -/
def rec4b : Record :=
  { conv_id := "c4", msg_id := "m2", create_time := 0, role := "assistant:gpt-4o",
    content := "hi", num_tokens := 1/2, model := "gpt-4o", cost := 1/100 }

/-- The record the extractor produces for `msg4c` in `conv4`. -/
def rec4c : Record :=
  { conv_id := "c4", msg_id := "m3", create_time := 0, role := "user",
    content := "bye", num_tokens := 3/4, model := "gpt-4o", cost := 3/400 }

/-- A message whose author role is present but the empty string. -/
def msg6 : Message := ⟨some "m", some "", ["hi"], none, none⟩

/-- A one-node conversation holding `msg6`. -/
def conv6 : Conversation := ⟨some "c6", [⟨some msg6⟩]⟩

/-- A node failing the content-parts check while its message's metadata
declares a model. -/
def badNode : Node := ⟨some ⟨some "mx", some "assistant", [], some "o3-mini", none⟩⟩

/-- A one-archive world with one entry. -/
def zipsW : List (String × ZipArchive) :=
  [("a.zip", ⟨[("conversations.json", ["x"])]⟩)]

/-! ## Helper lemmas -/

theorem processNode_not_qualifies (cid : String) (cpt : ℕ) (tbl : List (String × Pricing))
    (m : String) (node : Node) (hq : qualifies node = false) :
    processNode cid cpt tbl m node = (m, none) := by
  rcases node with ⟨_ | ⟨mid, role, parts, slug, ct⟩⟩
  · simp [processNode]
  · rcases parts with _ | ⟨p0, ps⟩
    · simp [processNode]
    · rcases role with _ | ⟨role⟩
      · simp [processNode]
      · by_cases hrole : role = ""
        · simp [processNode, hrole]
        · simp [qualifies, hrole] at hq

theorem processNode_isSome (cid : String) (cpt : ℕ) (tbl : List (String × Pricing))
    (m : String) (node : Node) :
    ((processNode cid cpt tbl m node).2).isSome = qualifies node := by
  rcases node with ⟨_ | ⟨mid, role, parts, slug, ct⟩⟩
  · simp [processNode, qualifies]
  · rcases parts with _ | ⟨p0, ps⟩
    · simp [processNode, qualifies]
    · rcases role with _ | ⟨role⟩
      · simp [processNode, qualifies]
      · by_cases hrole : role = "" <;> simp [processNode, qualifies, hrole]

theorem runNodes_length (cid : String) (cpt : ℕ) (tbl : List (String × Pricing))
    (ns : List Node) : ∀ m, (runNodes cid cpt tbl m ns).length
      = List.countP (fun n => qualifies n) ns := by
  induction ns with
  | nil => intro m; simp [runNodes]
  | cons node rest ih =>
    intro m
    have h := processNode_isSome cid cpt tbl m node
    rw [runNodes, List.length_append, ih, List.countP_cons]
    cases h2 : (processNode cid cpt tbl m node).2 with
    | none => rw [h2] at h; simp [h2, ← h]
    | some r => rw [h2] at h; simp [h2, ← h]; omega

theorem runNodes_insert_skip (cid : String) (cpt : ℕ) (tbl : List (String × Pricing))
    (bad : Node) (hbad : qualifies bad = false) :
    ∀ (m : String) (pre post : List Node),
      runNodes cid cpt tbl m (pre ++ bad :: post) = runNodes cid cpt tbl m (pre ++ post) := by
  intro m pre post
  induction pre generalizing m with
  | nil => simp [runNodes, processNode_not_qualifies cid cpt tbl m bad hbad]
  | cons n pre ih =>
    rw [List.cons_append, List.cons_append, runNodes, runNodes, ih]

theorem runNodes_map_model (cid : String) (cpt : ℕ) (tbl : List (String × Pricing))
    (ns : List Node) : ∀ m, (runNodes cid cpt tbl m ns).map Record.model
      = stickyResolve m ((ns.filter (fun n => qualifies n)).map node_model_slug) := by
  induction ns with
  | nil => intro m; simp [runNodes, stickyResolve]
  | cons node rest ih =>
    intro m
    rcases node with ⟨_ | ⟨mid, role, parts, slug, ct⟩⟩
    · simpa [runNodes, processNode, qualifies] using ih m
    · rcases parts with _ | ⟨p0, ps⟩
      · simpa [runNodes, processNode, qualifies] using ih m
      · rcases role with _ | ⟨role⟩
        · simpa [runNodes, processNode, qualifies] using ih m
        · by_cases hrole : role = ""
          · simpa [runNodes, processNode, qualifies, hrole] using ih m
          · simp [runNodes, processNode, qualifies, hrole, node_model_slug,
              stickyResolve, ih]

theorem getLast?_cons_getD :
    ∀ (M : List String) (seed v : String),
      ((v :: M).getLast?).getD seed = (M.getLast?).getD v
  | [], _, _ => by simp
  | x :: xs, seed, v => by
    rw [List.getLast?_cons_cons, getLast?_cons_getD xs seed x,
      ← getLast?_cons_getD xs v x]

theorem stickyResolve_getElem (L : List (Option String)) :
    ∀ (seed : String) (k : ℕ), k < L.length →
      (stickyResolve seed L)[k]?
        = some ((((L.take (k + 1)).filterMap id).getLast?).getD seed) := by
  induction L with
  | nil => intro seed k hk; simp at hk
  | cons s rest ih =>
    intro seed k hk
    cases k with
    | zero => rcases s with _ | v <;> simp [stickyResolve]
    | succ k =>
      have hk' : k < rest.length := by simpa using hk
      have h := ih (s.getD seed) k hk'
      rcases s with _ | v
      · simpa [stickyResolve] using h
      · rw [stickyResolve]
        simp only [Option.getD_some, List.getElem?_cons_succ, List.take_succ_cons]
        rw [ih v k hk']
        have hfm : List.filterMap id (some v :: rest.take (k + 1))
            = v :: List.filterMap id (rest.take (k + 1)) := by
          simp [List.filterMap_cons]
        rw [hfm, getLast?_cons_getD]

theorem runNodes_record_facts (cid : String) (cpt : ℕ) (tbl : List (String × Pricing))
    (ns : List Node) : ∀ m r, r ∈ runNodes cid cpt tbl m ns →
      r.cost = (if r.role = "user" then (pricingFor tbl r.model).input
                else (pricingFor tbl r.model).output) * r.num_tokens
      ∧ r.num_tokens = num_tokens_calc r.content.length cpt := by
  induction ns with
  | nil => intro m r hr; simp [runNodes] at hr
  | cons node rest ih =>
    intro m r hr
    rcases node with ⟨_ | ⟨mid, role, parts, slug, ct⟩⟩
    · rw [runNodes] at hr; simp [processNode] at hr; exact ih _ r hr
    · rcases parts with _ | ⟨p0, ps⟩
      · rw [runNodes] at hr; simp [processNode] at hr; exact ih _ r hr
      · rcases role with _ | ⟨role⟩
        · rw [runNodes] at hr; simp [processNode] at hr; exact ih _ r hr
        · by_cases hrole : role = ""
          · rw [runNodes] at hr; simp [processNode, hrole] at hr; exact ih _ r hr
          · rw [runNodes] at hr
            simp [processNode, hrole] at hr
            rcases hr with hr | hr
            · subst hr
              refine ⟨?_, rfl⟩
              by_cases hu : role = "user"
              · simp [hu]
              · by_cases ha : role = "assistant"
                · have hne : ("assistant:" ++ (slug.getD m)) ≠ "user" := by
                    intro hcontra
                    have hlen := congrArg String.length hcontra
                    rw [String.length_append] at hlen
                    have e1 : "assistant:".length = 10 := rfl
                    have e2 : "user".length = 4 := rfl
                    omega
                  simp [hu, ha, hne]
                · simp [hu, ha]
            · exact ih _ r hr

theorem lookup_eraseKey_ne (p q : String) (h : p ≠ q) :
    ∀ fs : List (String × String),
      List.lookup p (eraseKey q fs) = List.lookup p fs
  | [] => rfl
  | (a, c) :: rest => by
    by_cases ha : a = q
    · subst ha
      rw [eraseKey, if_pos rfl, lookup_eraseKey_ne p a h rest]
      have hpa : (p == a) = false := beq_eq_false_iff_ne.mpr h
      simp [List.lookup, hpa]
    · rw [eraseKey, if_neg ha]
      by_cases hpa : p = a
      · subst hpa; simp [List.lookup]
      · have hf : (p == a) = false := beq_eq_false_iff_ne.mpr hpa
        simp [List.lookup, hf, lookup_eraseKey_ne p q h rest]

theorem lookup_eraseKey_self (p : String) :
    ∀ fs : List (String × String), List.lookup p (eraseKey p fs) = none
  | [] => rfl
  | (a, c) :: rest => by
    by_cases ha : a = p
    · subst ha; rw [eraseKey, if_pos rfl]; exact lookup_eraseKey_self a rest
    · rw [eraseKey, if_neg ha]
      have hf : (p == a) = false := beq_eq_false_iff_ne.mpr (fun hc => ha hc.symm)
      simp [List.lookup, hf, lookup_eraseKey_self p rest]

theorem lookup_fsSet_self (fs : List (String × String)) (p c : String) :
    List.lookup p (fsSet fs p c) = some c := by
  simp [fsSet, List.lookup]

theorem lookup_fsSet_ne (fs : List (String × String)) (p q c : String) (h : p ≠ q) :
    List.lookup p (fsSet fs q c) = List.lookup p fs := by
  have hpq : (p == q) = false := beq_eq_false_iff_ne.mpr h
  simp [fsSet, List.lookup, hpq, lookup_eraseKey_ne p q h fs]

theorem runOps_append (ops1 ops2 : List FSOp) :
    ∀ fs, runOps fs (ops1 ++ ops2) = runOps (runOps fs ops1) ops2 := by
  induction ops1 with
  | nil => intro fs; rfl
  | cons op rest ih => intro fs; simp [runOps, ih]

theorem chunkWrites_length (temp : String) :
    ∀ (chunks : List String) (acc : String),
      (chunkWrites temp acc chunks).length = chunks.length
  | [], _ => rfl
  | c :: rest, acc => by
    simp [chunkWrites, chunkWrites_length temp rest (acc ++ c)]

theorem chunkWrites_mem (temp : String) :
    ∀ (chunks : List String) (acc : String) (op : FSOp),
      op ∈ chunkWrites temp acc chunks → ∃ c, op = FSOp.write temp c
  | [], _, op => by intro hop; simp [chunkWrites] at hop
  | c :: rest, acc, op => by
    intro hop
    rcases List.mem_cons.mp hop with hop | hop
    · exact ⟨acc ++ c, hop⟩
    · exact chunkWrites_mem temp rest (acc ++ c) op hop

theorem runOps_writes_lookup_ne (temp dest : String) (h : dest ≠ temp) :
    ∀ (ops : List FSOp) (fs : List (String × String)),
      (∀ op ∈ ops, ∃ c, op = FSOp.write temp c) →
      List.lookup dest (runOps fs ops) = List.lookup dest fs
  | [], fs, _ => rfl
  | op :: rest, fs, hops => by
    obtain ⟨c, rfl⟩ := hops op (List.mem_cons_self op rest)
    rw [runOps, runOps_writes_lookup_ne temp dest h rest _
      (fun o ho => hops o (List.mem_cons_of_mem _ ho))]
    exact lookup_fsSet_ne fs dest temp c h

theorem runOps_chunkWrites_temp (temp : String) :
    ∀ (chunks : List String) (fs : List (String × String)) (acc : String),
      List.lookup temp fs = some acc →
      List.lookup temp (runOps fs (chunkWrites temp acc chunks))
        = some (acc ++ strJoin chunks)
  | [], fs, acc, hfs => by simpa [chunkWrites, runOps, strJoin] using hfs
  | c :: rest, fs, acc, hfs => by
    rw [chunkWrites, runOps]
    have := runOps_chunkWrites_temp temp rest (applyOp fs (FSOp.write temp (acc ++ c)))
      (acc ++ c) (lookup_fsSet_self fs temp (acc ++ c))
    rw [this, strJoin, String.append_assoc]

theorem runOps_extractTrace_final (fs : List (String × String))
    (temp dest : String) (chunks : List String) (h : dest ≠ temp) :
    List.lookup dest (runOps fs (extractTrace temp dest chunks)) = some (strJoin chunks)
    ∧ List.lookup temp (runOps fs (extractTrace temp dest chunks)) = none := by
  rw [extractTrace, runOps_append]
  set S := runOps fs (FSOp.write temp "" :: chunkWrites temp "" chunks) with hS
  have htemp : List.lookup temp S = some (strJoin chunks) := by
    rw [hS, runOps]
    have := runOps_chunkWrites_temp temp chunks (applyOp fs (FSOp.write temp ""))
      "" (lookup_fsSet_self fs temp "")
    rwa [String.empty_append] at this
  rw [runOps, runOps, applyOp, htemp]
  constructor
  · exact lookup_fsSet_self _ dest (strJoin chunks)
  · rw [lookup_fsSet_ne _ temp dest _ (fun hc => h hc.symm)]
    exact lookup_eraseKey_self temp S

theorem runOps_extractTrace_take (fs : List (String × String))
    (temp dest : String) (chunks : List String) (k : ℕ) (h : dest ≠ temp)
    (hk : k ≤ chunks.length + 1) :
    List.lookup dest (runOps fs ((extractTrace temp dest chunks).take k))
      = List.lookup dest fs := by
  have hlen : (FSOp.write temp "" :: chunkWrites temp "" chunks).length
      = chunks.length + 1 := by
    simp [chunkWrites_length]
  have hsplit : (extractTrace temp dest chunks).take k
      = (FSOp.write temp "" :: chunkWrites temp "" chunks).take k := by
    rw [extractTrace]
    exact List.take_append_of_le_length (by omega)
  rw [hsplit]
  refine runOps_writes_lookup_ne temp dest h _ fs ?_
  intro op hop
  have hmem : op ∈ FSOp.write temp "" :: chunkWrites temp "" chunks :=
    List.take_subset k _ hop
  rcases List.mem_cons.mp hmem with hmem | hmem
  · exact ⟨"", hmem⟩
  · exact chunkWrites_mem temp chunks "" op hmem

theorem extract_conv4_eq :
    extract_message_details conv4 4 COST_PER_TOKEN = [rec4a, rec4b, rec4c] := by
  have hu : ¬(("user" : String) = "") := by decide
  have ha : ¬(("assistant" : String) = "") := by decide
  have hua : ¬(("user" : String) = "assistant") := by decide
  have hau : ¬(("assistant" : String) = "user") := by decide
  have hl1 : ("hello" : String).length = 5 := by decide
  have hl2 : ("hi" : String).length = 2 := by decide
  have hl3 : ("bye" : String).length = 3 := by decide
  have happ : ("assistant" ++ ":" ++ "gpt-4o" : String) = "assistant:gpt-4o" := by decide
  norm_num [extract_message_details, conv4, node4a, node4b, node4c, msg4a, msg4b,
    msg4c, runNodes, processNode, pricingFor, COST_PER_TOKEN, num_tokens_calc,
    rec4a, rec4b, rec4c, List.lookup, Record.mk.injEq, hu, ha, hua, hau,
    hl1, hl2, hl3, happ]

/-! ## Claim theorems -/

/-- Claim C3: for every pricing table and every running model value, the
pricing lookup of `extract_message_details` is total (it is a Lean
function, so it cannot fail): a model missing from the table resolves to
the zero input/output entry, and a present model resolves to its entry. -/
theorem claim3_pricing_never_fails :
    ∀ (cost_per_token : List (String × Pricing)) (model : String),
      (List.lookup model cost_per_token = none →
        pricingFor cost_per_token model = { input := 0, output := 0 })
      ∧ ∀ p : Pricing, List.lookup model cost_per_token = some p →
          pricingFor cost_per_token model = p := by
  intro cost_per_token model
  constructor
  · intro hnone; simp [pricingFor, hnone]
  · intro p hp; simp [pricingFor, hp]

/-- Witness for C3: on the empty table, any model resolves to zero rates. -/
theorem claim3_witness :
    pricingFor [] "gpt-5" = { input := 0, output := 0 } :=
  (claim3_pricing_never_fails [] "gpt-5").1 rfl

/-- Claim C4: model resolution is sticky.  The extractor's record models
are exactly the sticky resolution (seed `"gpt-4o"`) of the model-slug
declarations of the qualifying nodes; position `k` of a sticky resolution
is the most recent declaration at or before `k`, or the seed when none
has occurred; and on the concrete three-message conversation where only
the second message declares `gpt-4o` (also the seed), all three records
resolve to `"gpt-4o"`. -/
theorem claim4_sticky_model :
    (∀ (conversation : Conversation) (chars_per_token : ℕ)
        (cost_per_token : List (String × Pricing)),
      (extract_message_details conversation chars_per_token cost_per_token).map Record.model
        = stickyResolve "gpt-4o"
            ((conversation.mapping.filter (fun n => qualifies n)).map node_model_slug))
    ∧ (∀ (seed : String) (L : List (Option String)) (k : ℕ), k < L.length →
        (stickyResolve seed L)[k]?
          = some ((((L.take (k + 1)).filterMap id).getLast?).getD seed))
    ∧ (extract_message_details conv4 4 COST_PER_TOKEN).map Record.model
        = ["gpt-4o", "gpt-4o", "gpt-4o"] := by
  refine ⟨?_, ?_, by decide⟩
  · intro conversation chars_per_token cost_per_token
    unfold extract_message_details
    exact runNodes_map_model _ chars_per_token cost_per_token conversation.mapping "gpt-4o"
  · intro seed L k hk
    exact stickyResolve_getElem L seed k hk

/-- Witness for C4: the indexed characterisation applied at a concrete
declaration list. -/
theorem claim4_witness :
    (stickyResolve "gpt-4o" [none, some "gpt-4o", none])[2]?
      = some (((([none, some "gpt-4o", none].take 3).filterMap id).getLast?).getD "gpt-4o") :=
  claim4_sticky_model.2.1 "gpt-4o" [none, some "gpt-4o", none] 2 (by decide)

/-- Claim C5: every emitted record's cost is the resolved model's input
rate times the token estimate for the `user` role and the output rate
otherwise, and a model absent from the table yields cost 0. -/
theorem claim5_cost_formula :
    ∀ (conversation : Conversation) (chars_per_token : ℕ)
      (cost_per_token : List (String × Pricing)) (r : Record),
      r ∈ extract_message_details conversation chars_per_token cost_per_token →
        r.cost = (if r.role = "user" then (pricingFor cost_per_token r.model).input
                  else (pricingFor cost_per_token r.model).output) * r.num_tokens
        ∧ (List.lookup r.model cost_per_token = none → r.cost = 0) := by
  intro conversation chars_per_token cost_per_token r hr
  unfold extract_message_details at hr
  have h := runNodes_record_facts _ chars_per_token cost_per_token
    conversation.mapping _ r hr
  refine ⟨h.1, fun hnone => ?_⟩
  rw [h.1]
  simp only [pricingFor, hnone, Option.getD_none]
  split <;> simp

/-- Witness for C5: the first record of the concrete conversation. -/
theorem claim5_witness :
    rec4a.cost = (if rec4a.role = "user" then (pricingFor COST_PER_TOKEN rec4a.model).input
                  else (pricingFor COST_PER_TOKEN rec4a.model).output) * rec4a.num_tokens
    ∧ (List.lookup rec4a.model COST_PER_TOKEN = none → rec4a.cost = 0) :=
  claim5_cost_formula conv4 4 COST_PER_TOKEN rec4a
    (extract_conv4_eq ▸ List.mem_cons_self rec4a [rec4b, rec4c])

/-- Counterexample for C6 as stated: a node whose message has a present
author role (the empty string) and non-empty content parts produces no
record, because the code's `if not role` check also skips empty-string
roles; so a conversation with one such node has `M = 1` in the claim's
terms but yields zero records. -/
theorem claim6_counterexample :
    msg6.authorRole = some "" ∧ msg6.parts ≠ [] ∧ (conv6.mapping).length = 1
    ∧ extract_message_details conv6 4 COST_PER_TOKEN = [] := by
  refine ⟨rfl, by decide, rfl, by decide⟩

/-- Claim C6 (amended): a record count equals the number of nodes with a
message, non-empty content parts and a non-empty author role; `qualifies`
characterises exactly those nodes. -/
theorem claim6_record_cardinality :
    (∀ (conversation : Conversation) (chars_per_token : ℕ)
        (cost_per_token : List (String × Pricing)),
      (extract_message_details conversation chars_per_token cost_per_token).length
        = List.countP (fun n => qualifies n) conversation.mapping)
    ∧ ∀ node : Node, qualifies node = true
        ↔ ∃ m, node.message = some m ∧ m.parts ≠ []
            ∧ ∃ role, m.authorRole = some role ∧ role ≠ "" := by
  constructor
  · intro conversation chars_per_token cost_per_token
    unfold extract_message_details
    exact runNodes_length _ chars_per_token cost_per_token conversation.mapping "gpt-4o"
  · intro node
    rcases node with ⟨_ | ⟨mid, role, parts, slug, ct⟩⟩
    · simp [qualifies]
    · rcases parts with _ | ⟨p0, ps⟩
      · simp [qualifies]
      · rcases role with _ | ⟨role⟩
        · simp [qualifies]
        · simp [qualifies]

/-- Witness for C6: cardinality evaluated on the concrete conversation. -/
theorem claim6_witness :
    (extract_message_details conv4 4 COST_PER_TOKEN).length
      = List.countP (fun n => qualifies n) conv4.mapping :=
  claim6_record_cardinality.1 conv4 4 COST_PER_TOKEN

/-- Claim C7: every record's token estimate is the character length of its
(first) content part divided by the characters-per-token constant; the
estimate is monotone in content length and doubling the length doubles the
estimate (for a positive constant). -/
theorem claim7_token_estimate :
    (∀ (conversation : Conversation) (chars_per_token : ℕ)
        (cost_per_token : List (String × Pricing)) (r : Record),
      r ∈ extract_message_details conversation chars_per_token cost_per_token →
        r.num_tokens = num_tokens_calc r.content.length chars_per_token)
    ∧ (∀ (chars_per_token l1 l2 : ℕ), 0 < chars_per_token → l1 ≤ l2 →
        num_tokens_calc l1 chars_per_token ≤ num_tokens_calc l2 chars_per_token)
    ∧ (∀ (chars_per_token l : ℕ), 0 < chars_per_token →
        num_tokens_calc (2 * l) chars_per_token
          = 2 * num_tokens_calc l chars_per_token) := by
  refine ⟨?_, ?_, ?_⟩
  · intro conversation chars_per_token cost_per_token r hr
    unfold extract_message_details at hr
    exact (runNodes_record_facts _ chars_per_token cost_per_token
      conversation.mapping _ r hr).2
  · intro cpt l1 l2 hcpt h12
    unfold num_tokens_calc
    have hc : (0 : ℚ) < (cpt : ℚ) := by exact_mod_cast hcpt
    exact (div_le_div_iff_of_pos_right hc).mpr (by exact_mod_cast h12)
  · intro cpt l hcpt
    unfold num_tokens_calc
    push_cast
    ring

/-- Witness for C7: doubling 5 characters to 10 doubles the estimate at 4
characters per token. -/
theorem claim7_witness :
    num_tokens_calc (2 * 5) 4 = 2 * num_tokens_calc 5 4 :=
  claim7_token_estimate.2.2 4 5 (by decide)

/-- Claim C8: batch processing is the order-preserving concatenation of
per-conversation extraction; conversations share no state, so a
conversation's records are the same alone or in any batch. -/
theorem claim8_batch_concat :
    (∀ (data : List Conversation) (chars_per_token : ℕ),
      process_conversations data chars_per_token
        = (data.map (fun conversation =>
            extract_message_details conversation chars_per_token COST_PER_TOKEN)).flatten)
    ∧ (∀ (xs ys : List Conversation) (chars_per_token : ℕ),
      process_conversations (xs ++ ys) chars_per_token
        = process_conversations xs chars_per_token
          ++ process_conversations ys chars_per_token)
    ∧ (∀ (conversation : Conversation) (chars_per_token : ℕ),
      process_conversations [conversation] chars_per_token
        = extract_message_details conversation chars_per_token COST_PER_TOKEN) := by
  have h1 : ∀ (data : List Conversation) (chars_per_token : ℕ),
      process_conversations data chars_per_token
        = (data.map (fun conversation =>
            extract_message_details conversation chars_per_token COST_PER_TOKEN)).flatten := by
    intro data chars_per_token
    induction data with
    | nil => rfl
    | cons c rest ih => simp [process_conversations, ih]
  refine ⟨h1, fun xs ys cpt => ?_, fun c cpt => by simp [process_conversations]⟩
  rw [h1, h1, h1, List.map_append, List.flatten_append]

/-- Claim C10: a node failing a skip check never updates the running model
(even when its message declares a model slug), so deleting it from the
mapping leaves the extractor's output unchanged. -/
theorem claim10_skipped_no_model_update :
    ∀ (conv_id : String) (chars_per_token : ℕ)
      (cost_per_token : List (String × Pricing)) (bad : Node),
      qualifies bad = false →
        (∀ model, processNode conv_id chars_per_token cost_per_token model bad
          = (model, none))
        ∧ ∀ (pre post : List Node) (oid : Option String),
            extract_message_details ⟨oid, pre ++ bad :: post⟩ chars_per_token cost_per_token
              = extract_message_details ⟨oid, pre ++ post⟩ chars_per_token cost_per_token := by
  intro conv_id chars_per_token cost_per_token bad hbad
  constructor
  · intro model
    exact processNode_not_qualifies conv_id chars_per_token cost_per_token model bad hbad
  · intro pre post oid
    unfold extract_message_details
    exact runNodes_insert_skip _ chars_per_token cost_per_token bad hbad "gpt-4o" pre post

/-- Witness for C10: a node with empty parts but a declared model slug is
inert when inserted into the middle of the concrete conversation. -/
theorem claim10_witness :
    processNode "c4" 4 COST_PER_TOKEN "gpt-4o" badNode = ("gpt-4o", none)
    ∧ extract_message_details ⟨some "c4", [node4a] ++ badNode :: [node4b, node4c]⟩
        4 COST_PER_TOKEN
      = extract_message_details ⟨some "c4", [node4a] ++ [node4b, node4c]⟩ 4 COST_PER_TOKEN :=
  ⟨(claim10_skipped_no_model_update "c4" 4 COST_PER_TOKEN badNode (by decide)).1 "gpt-4o",
   (claim10_skipped_no_model_update "c4" 4 COST_PER_TOKEN badNode (by decide)).2
     [node4a] [node4b, node4c] (some "c4")⟩

/-- Counterexample for C1 as stated: a decoded top level that is an empty
JSON object is not a sequence, yet the parsing stage succeeds and returns
zero records instead of failing — the code performs no shape validation,
and iterating an empty mapping simply yields nothing. -/
theorem claim1_counterexample :
    (Json.obj []).isSequence = false
    ∧ parse_stage (some (Json.obj [])) = Except.ok [] :=
  ⟨rfl, rfl⟩

/-- Claim C1 (amended): undecodable content fails the parsing stage; a
non-sequence top level fails as well — its elements are not conversation
mappings, or it is not iterable — except for the empty mapping, which is
accepted and yields no conversations. -/
theorem claim1_invalid_document :
    parse_stage none = Except.error PyError.JSONDecodeError
    ∧ ∀ j : Json, j.isSequence = false →
        (j = Json.obj [] → parse_stage (some j) = Except.ok [])
        ∧ (j ≠ Json.obj [] → ∃ e, parse_stage (some j) = Except.error e) := by
  refine ⟨rfl, ?_⟩
  intro j hj
  cases j with
  | null => exact ⟨fun h => Json.noConfusion h, fun _ => ⟨PyError.TypeError, rfl⟩⟩
  | bool b => exact ⟨fun h => Json.noConfusion h, fun _ => ⟨PyError.TypeError, rfl⟩⟩
  | num q => exact ⟨fun h => Json.noConfusion h, fun _ => ⟨PyError.TypeError, rfl⟩⟩
  | str s => exact absurd hj (by simp [Json.isSequence])
  | arr elements => exact absurd hj (by simp [Json.isSequence])
  | obj entries =>
    cases entries with
    | nil => exact ⟨fun _ => rfl, fun hne => absurd rfl hne⟩
    | cons kv rest =>
      refine ⟨fun h => ?_, fun _ => ⟨PyError.AttributeError, rfl⟩⟩
      exact List.noConfusion (Json.obj.inj h)

/-- Witness for C1: the amended theorem applied at the non-sequence,
non-empty value `null`. -/
theorem claim1_witness :
    ∃ e, parse_stage (some Json.null) = Except.error e :=
  (claim1_invalid_document.2 Json.null rfl).2 (fun h => Json.noConfusion h)

/-- Counterexample for C2 as stated: in the file-path destination branch,
failure after the second of the four trace operations (a mid-extraction
failure) leaves a partially-written file `"ab"` (of the full content
`"abcd"`) at the intermediate path in the working directory — a leftover
temporary file, contradicting "no temporary file is left behind"; the
destination itself is still untouched. -/
theorem claim2_counterexample :
    (extractTrace "conversations.json" "out.json" ["ab", "cd"]).length = 4
    ∧ List.lookup "conversations.json"
        (runOps [] ((extractTrace "conversations.json" "out.json" ["ab", "cd"]).take 2))
        = some "ab"
    ∧ List.lookup "out.json"
        (runOps [] ((extractTrace "conversations.json" "out.json" ["ab", "cd"]).take 2))
        = none :=
  ⟨rfl, rfl, rfl⟩

/-- Claim C2 (amended): with a file-path destination the entry is
extracted at an intermediate path (its name under the working directory)
and then relocated onto the destination; at every failure point during
extraction the destination path is untouched (no partially-written file
there), and a completed run leaves the full content at the destination and
removes the intermediate file — though a mid-extraction failure can leave
a partial file at the intermediate path. -/
theorem claim2_atomic_destination :
    (∀ (zips : List (String × ZipArchive)) (zip_path file_to_extract destination cwd : String)
        (fs : List (String × String)) (z : ZipArchive) (chunks : List String),
      List.lookup zip_path zips = some z →
      List.lookup file_to_extract z.entries = some chunks →
      extract_file_from_zip zips zip_path file_to_extract false destination cwd fs
        = (runOps fs (extractTrace (cwd ++ "/" ++ file_to_extract) destination chunks),
           Except.ok destination))
    ∧ (∀ (fs0 : List (String × String)) (temp dest : String) (chunks : List String) (k : ℕ),
        dest ≠ temp → k ≤ chunks.length + 1 →
        List.lookup dest (runOps fs0 ((extractTrace temp dest chunks).take k))
          = List.lookup dest fs0)
    ∧ (∀ (fs0 : List (String × String)) (temp dest : String) (chunks : List String),
        dest ≠ temp →
        List.lookup dest (runOps fs0 (extractTrace temp dest chunks)) = some (strJoin chunks)
        ∧ List.lookup temp (runOps fs0 (extractTrace temp dest chunks)) = none) := by
  refine ⟨?_, ?_, ?_⟩
  · intro zips zip_path file_to_extract destination cwd fs z chunks hz hc
    simp [extract_file_from_zip, hz, hc]
  · intro fs0 temp dest chunks k h hk
    exact runOps_extractTrace_take fs0 temp dest chunks k h hk
  · intro fs0 temp dest chunks h
    exact runOps_extractTrace_final fs0 temp dest chunks h

/-- Witness for C2: the amended theorem at a concrete archive, trace
prefix and full run. -/
theorem claim2_witness :
    extract_file_from_zip zipsW "a.zip" "conversations.json" false "out.json" "."
        ([] : List (String × String))
      = (runOps [] (extractTrace ("." ++ "/" ++ "conversations.json") "out.json" ["x"]),
         Except.ok "out.json")
    ∧ List.lookup "out.json"
        (runOps [] ((extractTrace "conversations.json" "out.json" ["ab", "cd"]).take 2))
        = List.lookup "out.json" ([] : List (String × String))
    ∧ List.lookup "out.json"
        (runOps [] (extractTrace "conversations.json" "out.json" ["ab", "cd"]))
        = some (strJoin ["ab", "cd"]) :=
  ⟨claim2_atomic_destination.1 zipsW "a.zip" "conversations.json" "out.json" "."
      [] ⟨[("conversations.json", ["x"])]⟩ ["x"] (by decide) (by decide),
   claim2_atomic_destination.2.1 [] "conversations.json" "out.json" ["ab", "cd"] 2
      (by decide) (by decide),
   (claim2_atomic_destination.2.2 [] "conversations.json" "out.json" ["ab", "cd"]
      (by decide)).1⟩

/-- Claim C9: `extract_file_from_zip` raises `FileNotFoundError` exactly
when the archive path is absent or the named entry is missing from the
archive's listing, and in those cases the filesystem is untouched (no
extracted file is produced). -/
theorem claim9_notfound_cases :
    ∀ (zips : List (String × ZipArchive)) (zip_path file_to_extract : String)
      (destIsDir : Bool) (destination cwd : String) (fs : List (String × String)),
      ((extract_file_from_zip zips zip_path file_to_extract destIsDir destination cwd fs).2
          = Except.error PyError.FileNotFoundError
        ↔ List.lookup zip_path zips = none
          ∨ ∃ z, List.lookup zip_path zips = some z
              ∧ List.lookup file_to_extract z.entries = none)
      ∧ ((List.lookup zip_path zips = none
          ∨ ∃ z, List.lookup zip_path zips = some z
              ∧ List.lookup file_to_extract z.entries = none) →
        (extract_file_from_zip zips zip_path file_to_extract destIsDir destination cwd fs).1
          = fs) := by
  intro zips zip_path file_to_extract destIsDir destination cwd fs
  unfold extract_file_from_zip
  split
  next hz =>
    exact ⟨⟨fun _ => Or.inl hz, fun _ => rfl⟩, fun _ => rfl⟩
  next z hz =>
    split
    next he =>
      exact ⟨⟨fun _ => Or.inr ⟨z, hz, he⟩, fun _ => rfl⟩, fun _ => rfl⟩
    next chunks he =>
      have hfalse : ¬(List.lookup zip_path zips = none
          ∨ ∃ z', List.lookup zip_path zips = some z'
              ∧ List.lookup file_to_extract z'.entries = none) := by
        rintro (h | ⟨z', hz', he'⟩)
        · rw [hz] at h; exact Option.noConfusion h
        · rw [hz] at hz'
          cases Option.some.inj hz'
          rw [he] at he'
          exact Option.noConfusion he'
      cases destIsDir
      · exact ⟨⟨fun hcontra => Except.noConfusion hcontra,
          fun hor => absurd hor hfalse⟩, fun hor => absurd hor hfalse⟩
      · exact ⟨⟨fun hcontra => Except.noConfusion hcontra,
          fun hor => absurd hor hfalse⟩, fun hor => absurd hor hfalse⟩

/-- Witness for C9: a missing archive path leaves the filesystem as it
was. -/
theorem claim9_witness :
    (extract_file_from_zip zipsW "b.zip" "conversations.json" true "d" "." []).1
      = ([] : List (String × String)) :=
  (claim9_notfound_cases zipsW "b.zip" "conversations.json" true "d" "." []).2
    (Or.inl (by decide))

end ChatGPTStats
